import Mathlib

/-!
Shallow embedding of `src/data/binance/client.rs` (mono-trading): the Binance
market-data client — interval wire tokens, exchange catalog, kline decoding,
and the `get_symbol_data` request flow — together with proofs of the spec's
claims about it.

External collaborators are modelled at their interface boundary:
* the HTTP transport is an oracle argument (`Except Unit _` = network error
  or a payload);
* Rust's `str::parse::<f32>` (an external standard-library parser over IEEE
  floats) is abstracted as a parameter `parse : String → Option β`; the
  decoder's structure does not depend on which scalar parser is plugged in;
* `reqwest::Response::error_for_status` fails exactly on client-error (4xx)
  and server-error (5xx) statuses, per its documented contract;
* `std::collections::HashMap` is modelled as an association list with
  replace-on-insert and first-match lookup (hash order is irrelevant to the
  claims, which only concern key/value association);
* `polars::DataFrame::new` succeeds iff the column names are distinct and
  all columns have equal length.

A Rust `panic!` (from `.unwrap()`) is a distinct outcome from returning an
`Err` value; the `Outcome` type keeps the two apart.
-/

namespace Binance

/-- The error enum `BinanceError` of the source.  The payloads of
`RequestFailure` (a `reqwest::Error`) and `ToDataFrameError` (a
`PolarsError`) are external opaque error values and are dropped. -/
inductive BinanceError where
  | symbolNotFound : String → BinanceError
  | intervalNotFound : BinanceError
  | requestFailure : BinanceError
  | toDataFrameError : BinanceError
deriving DecidableEq, Repr

/-- `type Kline = (i64, String, String, String, String, String, i64, String,
i32, String, String, String)` — the 12-field positional wire tuple, with
fields named after the destructuring in the source's decode loop. -/
structure Kline where
  openTime : Int
  openStr : String
  highStr : String
  lowStr : String
  closeStr : String
  volumeStr : String
  closeTime : Int
  quoteAssetVolume : String
  numTrades : Int
  field9 : String
  field10 : String
  field11 : String
deriving DecidableEq, Repr

/-- The `Interval` enum.  Rust carries a `u8` magnitude; we use `Nat`
(no arithmetic is performed on it, only pattern matching, so the embedding
is faithful on the `u8` range and beyond). -/
inductive Interval where
  | minutes : Nat → Interval
  | hours : Nat → Interval
  | days : Nat → Interval
  | weeks : Nat → Interval
  | months : Nat → Interval
deriving DecidableEq, Repr

/-- `impl TryFrom<Interval> for &'static str` — the table-driven mapping to
the exchange's wire token, every unlisted pair falling through to
`Err(BinanceError::IntervalNotFound)`. -/
def Interval.tryInto : Interval → Except BinanceError String
  | .minutes 1 => .ok "1m"
  | .minutes 3 => .ok "3m"
  | .minutes 5 => .ok "5m"
  | .minutes 15 => .ok "15m"
  | .minutes 30 => .ok "30m"
  | .hours 1 => .ok "1h"
  | .hours 2 => .ok "2h"
  | .hours 4 => .ok "4h"
  | .hours 6 => .ok "6h"
  | .hours 8 => .ok "8h"
  | .hours 12 => .ok "12h"
  | .days 1 => .ok "1d"
  | .days 3 => .ok "3d"
  | .weeks 1 => .ok "1w"
  | .months 1 => .ok "1M"
  | _ => .error .intervalNotFound

/-- The `Symbol` struct: one tradable pair's metadata from the exchange
listing. -/
structure Symbol where
  symbol : String
  status : String
  baseAsset : String
  baseAssetPrecision : Nat
  quoteAsset : String
  quotePrecision : Nat
  orderTypes : List String
  icebergAllowed : Bool
  ocoAllowed : Bool
  quoteOrderQtyMarketAllowed : Bool
  isSpotTradingAllowed : Bool
  isMarginTradingAllowed : Bool
  permissions : List String
deriving DecidableEq, Repr

/-- The raw wire shape `ExchangeData` of the `exchangeInfo` response. -/
structure ExchangeData where
  timezone : String
  serverTime : Nat
  symbols : List Symbol
deriving DecidableEq, Repr

/-- `HashMap::insert`: replace the value if the key is present, else append
the new entry. -/
def hmInsert (m : List (String × Symbol)) (k : String) (v : Symbol) :
    List (String × Symbol) :=
  match m with
  | [] => [(k, v)]
  | (k', v') :: rest =>
      if k' = k then (k, v) :: rest else (k', v') :: hmInsert rest k v

/-- `HashMap::get`: exact, case-sensitive key lookup. -/
def hmGet (m : List (String × Symbol)) (k : String) : Option Symbol :=
  match m with
  | [] => none
  | (k', v) :: rest => if k' = k then some v else hmGet rest k

/-- The `Exchange` struct: the catalog the client owns. -/
structure Exchange where
  timezone : String
  serverTime : Nat
  symbols : List (String × Symbol)
deriving DecidableEq, Repr

/-- `impl From<ExchangeData> for Exchange`: index each listed symbol entry
under its own `symbol` field, later duplicates overwriting earlier ones. -/
def Exchange.fromData (data : ExchangeData) : Exchange :=
  { timezone := data.timezone
    serverTime := data.serverTime
    symbols := data.symbols.foldl (fun m s => hmInsert m s.symbol s) [] }

/-- Line 159 of the source:
`self.exchange.symbols.get(symbol).ok_or(BinanceError::SymbolNotFound(..))`. -/
def lookupSymbol (ex : Exchange) (id : String) : Except BinanceError Symbol :=
  match hmGet ex.symbols id with
  | some v => .ok v
  | none => .error (.symbolNotFound id)

/-- A typed polars column: `i64` series or `f32` series (the float scalar is
the abstract `β`). -/
inductive Column (β : Type) where
  | ints : List Int → Column β
  | floats : List β → Column β
deriving DecidableEq, Repr

def Column.length : Column β → Nat
  | .ints xs => xs.length
  | .floats xs => xs.length

/-- `polars::Series`: a named column. -/
structure Series (β : Type) where
  name : String
  col : Column β
deriving DecidableEq, Repr

/-- `polars::DataFrame`: a sequence of columns (only built through
`DataFrame.new`). -/
structure DataFrame (β : Type) where
  cols : List (Series β)
deriving DecidableEq, Repr

/-- `DataFrame::new`: fails (a `PolarsError`) unless the column names are
distinct and all columns have equal length. -/
def DataFrame.new (cols : List (Series β)) : Except Unit (DataFrame β) :=
  if (cols.map Series.name).Nodup ∧
      cols.all (fun s => s.col.length = ((cols.map (fun s => s.col.length)).headD 0)) then
    .ok ⟨cols⟩
  else
    .error ()

/-- The outcome of running a Rust computation that may return `Ok`, return
`Err`, or `panic!` (the `.unwrap()` calls in the decode loop). -/
inductive Outcome (α : Type) where
  | ok : α → Outcome α
  | error : BinanceError → Outcome α
  | panic : Outcome α
deriving DecidableEq, Repr

def Outcome.isOk : Outcome α → Bool
  | .ok _ => true
  | _ => false

/-- The decode loop of `TryFrom<Klines> for DataFrame` (lines 51–61): for
each tuple in order, copy the two integer timestamps and parse the five
numeric strings; `none` from `parse` models the `.unwrap()` panic. -/
def decodeLoop (parse : String → Option β) :
    List Kline → Option (List Int × List Int × List β × List β × List β × List β × List β)
  | [] => some ([], [], [], [], [], [], [])
  | k :: rest =>
    match parse k.openStr, parse k.highStr, parse k.lowStr,
        parse k.closeStr, parse k.volumeStr with
    | some o, some h, some l, some c, some v =>
        match decodeLoop parse rest with
        | none => none
        | some (ots, cts, os, hs, ls, cs, vs) =>
            some (k.openTime :: ots, k.closeTime :: cts, o :: os, h :: hs,
              l :: ls, c :: cs, v :: vs)
    | _, _, _, _, _ => none

/-- Lines 63–71: the seven named series handed to `DataFrame::new`. -/
def candleCols (ots cts : List Int) (os hs ls cs vs : List β) : List (Series β) :=
  [⟨"open_time", .ints ots⟩, ⟨"close_time", .ints cts⟩,
   ⟨"open", .floats os⟩, ⟨"high", .floats hs⟩, ⟨"low", .floats ls⟩,
   ⟨"close", .floats cs⟩, ⟨"volume", .floats vs⟩]

/-- `impl TryFrom<Klines> for DataFrame` (lines 40–75): run the decode loop
(panicking on any parse failure), then hand the seven named columns to
`DataFrame::new`, whose error is wrapped as `ToDataFrameError` by `?`. -/
def klinesTryInto (parse : String → Option β) (klines : List Kline) :
    Outcome (DataFrame β) :=
  match decodeLoop parse klines with
  | none => .panic
  | some (ots, cts, os, hs, ls, cs, vs) =>
      match DataFrame.new (candleCols ots cts os hs ls cs vs) with
      | .error _ => .error .toDataFrameError
      | .ok df => .ok df

/-- The query triple the kline fetch sends:
`[("symbol", symbol), ("interval", interval_str), ("limit", "1000")]`. -/
structure KlineRequest where
  symbol : String
  interval : String
  limit : String
deriving DecidableEq, Repr

/-- The `BinanceClient` struct (the `reqwest::Client` handle is transport
state and is dropped). -/
structure BinanceClient where
  exchange : Exchange
deriving DecidableEq, Repr

/-- `reqwest::Response::error_for_status`: errors exactly on a client-error
(4xx) or server-error (5xx) status. -/
def errorForStatus (status : Nat) : Except Unit Nat :=
  if 400 ≤ status ∧ status ≤ 599 then .error () else .ok status

/-- `BinanceClient::new` (lines 133–151): ping the exchange and
`error_for_status` the response (any failure propagating as
`RequestFailure` via `#[from] reqwest::Error`), then fetch and index the
exchange listing.  `pingResp` is the transport's answer to the ping
(network error, or a status code); `exchangeResp` is its answer to the
`exchangeInfo` fetch including JSON decoding (both failure modes are
`reqwest::Error`, hence `RequestFailure`). -/
def BinanceClient.new (pingResp : Except Unit Nat)
    (exchangeResp : Except Unit ExchangeData) : Except BinanceError BinanceClient :=
  match pingResp with
  | .error _ => .error .requestFailure
  | .ok status =>
      match errorForStatus status with
      | .error _ => .error .requestFailure
      | .ok _ =>
          match exchangeResp with
          | .error _ => .error .requestFailure
          | .ok data => .ok ⟨Exchange.fromData data⟩

/-- `BinanceClient::get_symbol_data` (lines 153–174): validate the symbol
against the catalog, resolve the interval token, issue the kline request
(the transport oracle answers with a network/JSON error or the decoded
`Vec<Kline>`), then decode via `TryFrom<Klines> for DataFrame`.  The `from`
timestamp parameter appears exactly as in the source: bound, never read. -/
def BinanceClient.getSymbolData (parse : String → Option β) (self : BinanceClient)
    (symbol : String) (interval : Interval) (fromTs : Int)
    (transport : KlineRequest → Except Unit (List Kline)) : Outcome (DataFrame β) :=
  match hmGet self.exchange.symbols symbol with
  | none => .error (.symbolNotFound symbol)
  | some _ =>
      match interval.tryInto with
      | .error e => .error e
      | .ok intervalStr =>
          match transport ⟨symbol, intervalStr, "1000"⟩ with
          | .error _ => .error .requestFailure
          | .ok klines => klinesTryInto parse klines

/-- The kline request `get_symbol_data` issues, when its validations pass
(mirrors lines 159–166: `none` when lookup or interval resolution fails
before any request is sent). -/
def BinanceClient.sentKlineRequest (self : BinanceClient) (symbol : String)
    (interval : Interval) (fromTs : Int) : Option KlineRequest :=
  match hmGet self.exchange.symbols symbol with
  | none => none
  | some _ =>
      match interval.tryInto with
      | .error _ => none
      | .ok intervalStr => some ⟨symbol, intervalStr, "1000"⟩

/-! ## Spec-side definitions

These formalise vocabulary of the specification (the enumerated supported
interval set and the per-row parsed form), to be compared against the
source-derived definitions above. -/

/-- The spec's fixed supported set of (unit, magnitude) pairs:
minutes 1/3/5/15/30, hours 1/2/4/6/8/12, days 1/3, weeks 1, months 1. -/
def specSupportedSet : List Interval :=
  [.minutes 1, .minutes 3, .minutes 5, .minutes 15, .minutes 30,
   .hours 1, .hours 2, .hours 4, .hours 6, .hours 8, .hours 12,
   .days 1, .days 3, .weeks 1, .months 1]

/-- The parsed numeric form of one raw kline's five price/volume strings. -/
structure ParsedRow (β : Type) where
  openVal : β
  highVal : β
  lowVal : β
  closeVal : β
  volumeVal : β
deriving DecidableEq, Repr

/-- Parse the five numeric string fields of one tuple. -/
def parseRow (parse : String → Option β) (k : Kline) : Option (ParsedRow β) :=
  match parse k.openStr, parse k.highStr, parse k.lowStr,
      parse k.closeStr, parse k.volumeStr with
  | some o, some h, some l, some c, some v => some ⟨o, h, l, c, v⟩
  | _, _, _, _, _ => none

/-- Parse every tuple of a batch, in order; `none` as soon as any numeric
field of any tuple fails to parse. -/
def parseRows (parse : String → Option β) : List Kline → Option (List (ParsedRow β))
  | [] => some []
  | k :: rest =>
    match parseRow parse k, parseRows parse rest with
    | some r, some rs => some (r :: rs)
    | _, _ => none

/-! ## Concrete sample data (used by witnesses and counterexamples) -/

/-- A concrete catalog entry, shaped like the exchange's `BTCUSDT` record. -/
def btcSymbol : Symbol :=
  { symbol := "BTCUSDT", status := "TRADING", baseAsset := "BTC",
    baseAssetPrecision := 8, quoteAsset := "USDT", quotePrecision := 2,
    orderTypes := ["LIMIT", "MARKET"], icebergAllowed := true,
    ocoAllowed := true, quoteOrderQtyMarketAllowed := true,
    isSpotTradingAllowed := true, isMarginTradingAllowed := false,
    permissions := ["SPOT"] }

/-- A concrete one-symbol exchange listing. -/
def sampleListing : ExchangeData :=
  { timezone := "UTC", serverTime := 1700000000000, symbols := [btcSymbol] }

/-- A client whose catalog was built from `sampleListing`. -/
def sampleClient : BinanceClient := ⟨Exchange.fromData sampleListing⟩

/-- A well-formed kline tuple with integer-string numeric fields. -/
def goodKline : Kline :=
  { openTime := 1699110000000, openStr := "7", highStr := "9", lowStr := "5",
    closeStr := "8", volumeStr := "120", closeTime := 1699110059999,
    quoteAssetVolume := "0", numTrades := 42, field9 := "0", field10 := "0",
    field11 := "0" }

/-- A second well-formed kline tuple. -/
def goodKline2 : Kline :=
  { openTime := 1699110060000, openStr := "8", highStr := "11", lowStr := "6",
    closeStr := "10", volumeStr := "95", closeTime := 1699110119999,
    quoteAssetVolume := "0", numTrades := 17, field9 := "0", field10 := "0",
    field11 := "0" }

/-- A kline tuple whose open-price string is not numeric. -/
def badOpenKline : Kline :=
  { openTime := 1699110000000, openStr := "abc", highStr := "9", lowStr := "5",
    closeStr := "8", volumeStr := "120", closeTime := 1699110059999,
    quoteAssetVolume := "0", numTrades := 42, field9 := "0", field10 := "0",
    field11 := "0" }

/-- Decimal digit value of a character, if it is a digit. -/
def digitVal (c : Char) : Option Nat :=
  if 48 ≤ c.toNat ∧ c.toNat ≤ 57 then some (c.toNat - 48) else none

/-- Accumulate a decimal numeral over a character list. -/
def natFromChars : List Char → Nat → Option Nat
  | [], acc => some acc
  | c :: cs, acc =>
    match digitVal c with
    | none => none
    | some d => natFromChars cs (acc * 10 + d)

/-- The reference scalar parser used to instantiate the abstract `parse`
parameter in concrete witnesses: non-empty decimal natural-number strings
parse, anything else fails. -/
def natParse (s : String) : Option Nat :=
  match s.data with
  | [] => none
  | cs => natFromChars cs 0

/-! ## Helper lemmas -/

/-- Everything in `hmInsert m k v` was already in `m` or is the new pair. -/
theorem mem_hmInsert {m : List (String × Symbol)} {k : String} {v : Symbol}
    {p : String × Symbol} (hp : p ∈ hmInsert m k v) : p ∈ m ∨ p = (k, v) := by
  induction m with
  | nil =>
      rw [hmInsert] at hp
      right
      simpa using hp
  | cons q rest ih =>
      obtain ⟨k', v'⟩ := q
      rw [hmInsert] at hp
      by_cases h : k' = k
      · simp only [if_pos h, List.mem_cons] at hp
        rcases hp with h1 | h1
        · right; exact h1
        · left; exact List.mem_cons_of_mem _ h1
      · simp only [if_neg h, List.mem_cons] at hp
        rcases hp with h1 | h1
        · left; exact List.mem_cons.mpr (Or.inl h1)
        · rcases ih h1 with h2 | h2
          · left; exact List.mem_cons_of_mem _ h2
          · right; exact h2

/-- A successful `hmGet` returns a pair stored in the map. -/
theorem hmGet_mem {m : List (String × Symbol)} {k : String} {v : Symbol}
    (h : hmGet m k = some v) : (k, v) ∈ m := by
  induction m with
  | nil => simp [hmGet] at h
  | cons q rest ih =>
      obtain ⟨k', v'⟩ := q
      rw [hmGet] at h
      by_cases hk : k' = k
      · rw [if_pos hk] at h
        obtain rfl := Option.some_injective _ h
        subst hk
        exact List.mem_cons_self _ _
      · rw [if_neg hk] at h
        exact List.mem_cons_of_mem _ (ih h)

/-- The key/value invariant is preserved by the catalog-building fold. -/
theorem foldl_insert_inv (syms : List Symbol) :
    ∀ m : List (String × Symbol), (∀ p ∈ m, (p.2).symbol = p.1) →
      ∀ p ∈ syms.foldl (fun m s => hmInsert m s.symbol s) m, (p.2).symbol = p.1 := by
  induction syms with
  | nil => intro m hm p hp; exact hm p (by simpa using hp)
  | cons s rest ih =>
      intro m hm p hp
      rw [List.foldl_cons] at hp
      refine ih (hmInsert m s.symbol s) ?_ p hp
      intro q hq
      rcases mem_hmInsert hq with h1 | h1
      · exact hm q h1
      · subst h1; rfl

/-- In a catalog built by `Exchange.fromData`, a stored value's `symbol`
field equals the key it is stored under. -/
theorem fromData_get_symbol_eq {d : ExchangeData} {k : String} {v : Symbol}
    (h : hmGet (Exchange.fromData d).symbols k = some v) : v.symbol = k :=
  foldl_insert_inv d.symbols [] (by simp) (k, v) (hmGet_mem h)

/-- When every tuple of the batch parses, the decode loop produces exactly
the per-field column lists, in input order. -/
theorem decodeLoop_of_parseRows (parse : String → Option β) :
    ∀ (klines : List Kline) (rows : List (ParsedRow β)),
      parseRows parse klines = some rows →
      decodeLoop parse klines =
        some (klines.map Kline.openTime, klines.map Kline.closeTime,
          rows.map ParsedRow.openVal, rows.map ParsedRow.highVal,
          rows.map ParsedRow.lowVal, rows.map ParsedRow.closeVal,
          rows.map ParsedRow.volumeVal) := by
  intro klines
  induction klines with
  | nil =>
      intro rows h
      rw [parseRows] at h
      obtain rfl := Option.some_injective _ h
      rfl
  | cons k rest ih =>
      intro rows h
      rw [parseRows] at h
      cases hr : parseRow parse k with
      | none => rw [hr] at h; cases h
      | some r =>
          cases hrs : parseRows parse rest with
          | none => rw [hr, hrs] at h; cases h
          | some rs =>
              rw [hr, hrs] at h
              obtain rfl := Option.some_injective _ h
              rw [parseRow] at hr
              cases ho : parse k.openStr with
          | none => rw [ho] at hr; cases hr
          | some o =>
            cases hh : parse k.highStr with
            | none => rw [ho, hh] at hr; cases hr
            | some hv =>
              cases hl : parse k.lowStr with
              | none => rw [ho, hh, hl] at hr; cases hr
              | some l =>
                cases hc : parse k.closeStr with
                | none => rw [ho, hh, hl, hc] at hr; cases hr
                | some c =>
                  cases hvv : parse k.volumeStr with
                  | none => rw [ho, hh, hl, hc, hvv] at hr; cases hr
                  | some v =>
                    rw [ho, hh, hl, hc, hvv] at hr
                    obtain rfl := Option.some_injective _ hr
                    simp [decodeLoop, ho, hh, hl, hc, hvv, ih rs hrs]

/-- A fully parsed batch has exactly one parsed row per input tuple. -/
theorem parseRows_length (parse : String → Option β) :
    ∀ (klines : List Kline) (rows : List (ParsedRow β)),
      parseRows parse klines = some rows → rows.length = klines.length := by
  intro klines
  induction klines with
  | nil =>
      intro rows h
      rw [parseRows] at h
      obtain rfl := Option.some_injective _ h
      rfl
  | cons k rest ih =>
      intro rows h
      rw [parseRows] at h
      cases hr : parseRow parse k with
      | none => rw [hr] at h; cases h
      | some r =>
          cases hrs : parseRows parse rest with
          | none => rw [hr, hrs] at h; cases h
          | some rs =>
              rw [hr, hrs] at h
              obtain rfl := Option.some_injective _ h
              simp [ih rs hrs]

/-! ## Claims -/

/-- C3: for every (unit, magnitude) pair in the fixed supported set
{minutes 1/3/5/15/30, hours 1/2/4/6/8/12, days 1/3, weeks 1, months 1},
`TryFrom<Interval> for &str` returns exactly the literal token of the
enumerated table (month uppercase "1M", minute lowercase "1m", preserved
literally); for every pair outside that set it fails with the dedicated
interval error (`IntervalNotFound` in the source, the spec's
`IntervalNotSupported`). -/
theorem claim_interval_wire_tokens (i : Interval) :
    ((Interval.minutes 1).tryInto = .ok "1m" ∧ (Interval.minutes 3).tryInto = .ok "3m" ∧
     (Interval.minutes 5).tryInto = .ok "5m" ∧ (Interval.minutes 15).tryInto = .ok "15m" ∧
     (Interval.minutes 30).tryInto = .ok "30m" ∧ (Interval.hours 1).tryInto = .ok "1h" ∧
     (Interval.hours 2).tryInto = .ok "2h" ∧ (Interval.hours 4).tryInto = .ok "4h" ∧
     (Interval.hours 6).tryInto = .ok "6h" ∧ (Interval.hours 8).tryInto = .ok "8h" ∧
     (Interval.hours 12).tryInto = .ok "12h" ∧ (Interval.days 1).tryInto = .ok "1d" ∧
     (Interval.days 3).tryInto = .ok "3d" ∧ (Interval.weeks 1).tryInto = .ok "1w" ∧
     (Interval.months 1).tryInto = .ok "1M") ∧
    (i ∉ specSupportedSet → i.tryInto = .error .intervalNotFound) := by
  refine ⟨⟨rfl, rfl, rfl, rfl, rfl, rfl, rfl, rfl, rfl, rfl, rfl, rfl, rfl, rfl, rfl⟩, ?_⟩
  intro h
  rw [Interval.tryInto.eq_def]
  split <;> simp_all [specSupportedSet]

/-- Witness for C3 at the unsupported pair minutes 2. -/
theorem claim_interval_wire_tokens_witness :
    (Interval.minutes 2) ∉ specSupportedSet ∧
      (Interval.minutes 2).tryInto = .error .intervalNotFound :=
  ⟨by decide, (claim_interval_wire_tokens (.minutes 2)).2 (by decide)⟩

/-- C10: decoding an empty kline batch succeeds and returns a table whose
seven columns (open_time, close_time, open, high, low, close, volume) all
exist and have length zero. -/
theorem claim_decode_empty {β : Type} (parse : String → Option β) :
    klinesTryInto parse [] = .ok ⟨candleCols [] [] ([] : List β) [] [] [] []⟩ ∧
    (candleCols [] [] ([] : List β) [] [] [] []).map Series.name =
      ["open_time", "close_time", "open", "high", "low", "close", "volume"] ∧
    ∀ s ∈ candleCols [] [] ([] : List β) [] [] [] [], s.col.length = 0 := by
  refine ⟨?_, by simp [candleCols], ?_⟩
  · simp [klinesTryInto, decodeLoop, DataFrame.new, candleCols, Column.length]
  · intro s hs
    simp only [candleCols, List.mem_cons, List.not_mem_nil, or_false] at hs
    rcases hs with rfl | rfl | rfl | rfl | rfl | rfl | rfl <;> rfl

/-- C9: two `get_symbol_data` calls on the same client that agree on the
symbol and interval and observe the same transport responses but differ
arbitrarily in the `since` timestamp issue the same kline request (same
symbol, interval token and limit) and produce the same result. -/
theorem claim_since_noninterference {β : Type} (parse : String → Option β)
    (client : BinanceClient) (symbol : String) (interval : Interval)
    (fromTs1 fromTs2 : Int) (transport : KlineRequest → Except Unit (List Kline)) :
    client.sentKlineRequest symbol interval fromTs1
        = client.sentKlineRequest symbol interval fromTs2 ∧
    client.getSymbolData parse symbol interval fromTs1 transport
        = client.getSymbolData parse symbol interval fromTs2 transport :=
  ⟨rfl, rfl⟩

/-- C2 counterexample: the claim says a `since` value before the epoch is
rejected; the source performs no validation at all on `from`, so a call
with `since = -1` ms (before the epoch) succeeds. -/
theorem claim_since_validated_cex :
    ((-1 : Int) < 0) ∧
    (sampleClient.getSymbolData natParse "BTCUSDT" (.minutes 1) (-1)
        (fun _ => .ok [])).isOk = true :=
  ⟨by decide, by decide⟩

/-- C2 (amended): the `since` timestamp argument of `get_symbol_data` is
not validated at all; it has no effect on the request or the result. -/
theorem claim_since_ignored {β : Type} (parse : String → Option β)
    (client : BinanceClient) (symbol : String) (interval : Interval) (fromTs : Int)
    (transport : KlineRequest → Except Unit (List Kline)) :
    client.getSymbolData parse symbol interval fromTs transport
        = client.getSymbolData parse symbol interval 0 transport ∧
    client.sentKlineRequest symbol interval fromTs
        = client.sentKlineRequest symbol interval 0 :=
  ⟨rfl, rfl⟩

/-- C5: on a catalog built from a listing, lookup of a present identifier
returns the stored SymbolInfo whose `symbol` field equals the identifier;
lookup of an absent identifier fails with `SymbolNotFound` carrying that
exact identifier.  Matching is `hmGet`'s exact string equality on the key —
case-sensitive, with no normalization of the input. -/
theorem claim_lookup_exact (d : ExchangeData) (id : String) :
    (∀ v : Symbol, hmGet (Exchange.fromData d).symbols id = some v →
        lookupSymbol (Exchange.fromData d) id = .ok v ∧ v.symbol = id) ∧
    (hmGet (Exchange.fromData d).symbols id = none →
        lookupSymbol (Exchange.fromData d) id = .error (.symbolNotFound id)) := by
  constructor
  · intro v h
    refine ⟨?_, fromData_get_symbol_eq h⟩
    rw [lookupSymbol, h]
  · intro h
    rw [lookupSymbol, h]

/-- Witness for C5: the sample catalog holds exactly "BTCUSDT"; the
uppercase identifier is found, the lowercase spelling is not. -/
theorem claim_lookup_exact_witness :
    (lookupSymbol (Exchange.fromData sampleListing) "BTCUSDT" = .ok btcSymbol ∧
      btcSymbol.symbol = "BTCUSDT") ∧
    lookupSymbol (Exchange.fromData sampleListing) "btcusdt"
        = .error (.symbolNotFound "btcusdt") :=
  ⟨(claim_lookup_exact sampleListing "BTCUSDT").1 btcSymbol (by decide),
   (claim_lookup_exact sampleListing "btcusdt").2 (by decide)⟩

/-- C6: a `get_symbol_data` call with a symbol absent from the catalog
fails with `SymbolNotFound` before interval resolution and before any
network request (no kline request is even formed), whatever the interval —
so unknown symbol plus unsupported interval yields `SymbolNotFound`, never
the interval error. -/
theorem claim_symbol_before_interval {β : Type} (parse : String → Option β)
    (client : BinanceClient) (symbol : String) (interval : Interval) (fromTs : Int)
    (transport : KlineRequest → Except Unit (List Kline))
    (h : hmGet client.exchange.symbols symbol = none) :
    client.getSymbolData parse symbol interval fromTs transport
        = .error (.symbolNotFound symbol) ∧
    client.sentKlineRequest symbol interval fromTs = none := by
  constructor
  · rw [BinanceClient.getSymbolData, h]
  · rw [BinanceClient.sentKlineRequest, h]

/-- Witness for C6: unknown symbol combined with the unsupported interval
minutes 2 still reports `SymbolNotFound`. -/
theorem claim_symbol_before_interval_witness :
    sampleClient.getSymbolData natParse "DOGEUSDT" (.minutes 2) 0 (fun _ => .ok [])
        = .error (.symbolNotFound "DOGEUSDT") ∧
    sampleClient.sentKlineRequest "DOGEUSDT" (.minutes 2) 0 = none :=
  claim_symbol_before_interval natParse sampleClient "DOGEUSDT" (.minutes 2) 0
    (fun _ => .ok []) (by decide)

/-- C7: in a catalog built by `From<ExchangeData> for Exchange`, every key
of the symbol mapping equals the `symbol` field of the value stored under
it.  (Post-construction immutability is structural: the embedding is pure
and the source only ever reads the map through `&self`.) -/
theorem claim_catalog_invariant (d : ExchangeData) (k : String) (v : Symbol)
    (h : hmGet (Exchange.fromData d).symbols k = some v) : v.symbol = k :=
  fromData_get_symbol_eq h

/-- Witness for C7 on the sample listing. -/
theorem claim_catalog_invariant_witness : btcSymbol.symbol = "BTCUSDT" :=
  claim_catalog_invariant sampleListing "BTCUSDT" btcSymbol (by decide)

/-- C8 counterexample: the claim says any non-success ping status fails
construction, but `error_for_status` only fails on 4xx/5xx; at status 300
(not a success status, 2xx) construction still succeeds and builds the
catalog. -/
theorem claim_ping_nonsuccess_cex :
    ¬(200 ≤ 300 ∧ 300 ≤ 299) ∧
    BinanceClient.new (.ok 300) (.ok sampleListing) = .ok sampleClient :=
  ⟨by decide, rfl⟩

/-- C8 (amended): when the ping send fails outright, or its status is a
client error or server error (400–599), construction fails with
`RequestFailure`, the listing response is never consulted (the result is
the same whatever it would have been), and no client value exists. -/
theorem claim_ping_failure_fails_new (status : Nat) (h4 : 400 ≤ status)
    (h5 : status ≤ 599) (exchangeResp other : Except Unit ExchangeData) :
    BinanceClient.new (.ok status) exchangeResp = .error .requestFailure ∧
    BinanceClient.new (.ok status) exchangeResp
        = BinanceClient.new (.ok status) other ∧
    BinanceClient.new (.error ()) exchangeResp = .error .requestFailure := by
  have h : errorForStatus status = .error () := by
    rw [errorForStatus, if_pos ⟨h4, h5⟩]
  refine ⟨?_, ?_, rfl⟩
  · simp [BinanceClient.new, h]
  · simp [BinanceClient.new, h]

/-- Witness for C8's amended claim at status 404. -/
theorem claim_ping_failure_fails_new_witness :
    (400 ≤ 404 ∧ 404 ≤ 599) ∧
    BinanceClient.new (.ok 404) (.ok sampleListing) = .error .requestFailure :=
  ⟨by decide,
   (claim_ping_failure_fails_new 404 (by decide) (by decide)
      (.ok sampleListing) (.error ())).1⟩

/-- C4: when every numeric string of every tuple parses, decoding succeeds
and every one of the seven columns has length exactly the input length,
row i carrying tuple i's copied integer timestamps and parsed numeric
fields, in the original input order. -/
theorem claim_decode_roundtrip {β : Type} (parse : String → Option β)
    (klines : List Kline) (rows : List (ParsedRow β))
    (h : parseRows parse klines = some rows) :
    klinesTryInto parse klines =
      .ok ⟨candleCols (klines.map Kline.openTime) (klines.map Kline.closeTime)
        (rows.map ParsedRow.openVal) (rows.map ParsedRow.highVal)
        (rows.map ParsedRow.lowVal) (rows.map ParsedRow.closeVal)
        (rows.map ParsedRow.volumeVal)⟩ ∧
    ∀ s ∈ candleCols (klines.map Kline.openTime) (klines.map Kline.closeTime)
        (rows.map ParsedRow.openVal) (rows.map ParsedRow.highVal)
        (rows.map ParsedRow.lowVal) (rows.map ParsedRow.closeVal)
        (rows.map ParsedRow.volumeVal), s.col.length = klines.length := by
  have hlen := parseRows_length parse klines rows h
  have hd := decodeLoop_of_parseRows parse klines rows h
  have hcols : ∀ s ∈ candleCols (klines.map Kline.openTime) (klines.map Kline.closeTime)
      (rows.map ParsedRow.openVal) (rows.map ParsedRow.highVal)
      (rows.map ParsedRow.lowVal) (rows.map ParsedRow.closeVal)
      (rows.map ParsedRow.volumeVal), s.col.length = klines.length := by
    intro s hs
    simp only [candleCols, List.mem_cons, List.not_mem_nil, or_false] at hs
    rcases hs with rfl | rfl | rfl | rfl | rfl | rfl | rfl <;>
      simp [Column.length, hlen]
  refine ⟨?_, hcols⟩
  have hnew : DataFrame.new (candleCols (klines.map Kline.openTime)
      (klines.map Kline.closeTime) (rows.map ParsedRow.openVal)
      (rows.map ParsedRow.highVal) (rows.map ParsedRow.lowVal)
      (rows.map ParsedRow.closeVal) (rows.map ParsedRow.volumeVal)) =
      .ok ⟨candleCols (klines.map Kline.openTime) (klines.map Kline.closeTime)
        (rows.map ParsedRow.openVal) (rows.map ParsedRow.highVal)
        (rows.map ParsedRow.lowVal) (rows.map ParsedRow.closeVal)
        (rows.map ParsedRow.volumeVal)⟩ := by
    rw [DataFrame.new, if_pos]
    constructor
    · simp [candleCols]
    · simp [candleCols, Column.length, hlen]
  simp only [klinesTryInto, hd, hnew]

/-- Witness for C4 on a concrete two-row batch. -/
theorem claim_decode_roundtrip_witness :
    klinesTryInto natParse [goodKline, goodKline2] =
      .ok ⟨candleCols ([goodKline, goodKline2].map Kline.openTime)
        ([goodKline, goodKline2].map Kline.closeTime)
        ([⟨7, 9, 5, 8, 120⟩, ⟨8, 11, 6, 10, 95⟩].map ParsedRow.openVal)
        ([⟨7, 9, 5, 8, 120⟩, ⟨8, 11, 6, 10, 95⟩].map ParsedRow.highVal)
        ([⟨7, 9, 5, 8, 120⟩, ⟨8, 11, 6, 10, 95⟩].map ParsedRow.lowVal)
        ([⟨7, 9, 5, 8, 120⟩, ⟨8, 11, 6, 10, 95⟩].map ParsedRow.closeVal)
        ([⟨7, 9, 5, 8, 120⟩, ⟨8, 11, 6, 10, 95⟩].map ParsedRow.volumeVal)⟩ :=
  (claim_decode_roundtrip natParse [goodKline, goodKline2]
    [⟨7, 9, 5, 8, 120⟩, ⟨8, 11, 6, 10, 95⟩] (by decide)).1

/-- C1: on a batch containing a tuple whose open-price string is not
numeric, the decode of `TryFrom<Klines> for DataFrame` produces no table,
partial or otherwise — but it panics (`.parse().unwrap()`) rather than
returning the `DecodeError`/`ToDataFrameError` value the spec describes:
no `BinanceError` is produced at all. -/
theorem claim_decode_parse_failure :
    klinesTryInto natParse [badOpenKline] = .panic ∧
    (∀ e : BinanceError, klinesTryInto natParse [badOpenKline] ≠ .error e) ∧
    (∀ df : DataFrame Nat, klinesTryInto natParse [badOpenKline] ≠ .ok df) := by
  have h : klinesTryInto natParse [badOpenKline] = .panic := by decide
  refine ⟨h, ?_, ?_⟩
  · intro e he
    rw [h] at he
    cases he
  · intro df hdf
    rw [h] at hdf
    cases hdf

end Binance
